import Mathlib

/-!
Shallow embedding of the XO game server (`src/index.js`).

The server keeps an in-memory `Map` from room ids to room records, and
mutates it through the socket handlers `create-room`, `join-room`,
`rejoin-room`, `make-move`, `ready-next-round`, `reset-scores`, the
`disconnect` notification, and the idle-cleanup timer callback.

Modelling choices:
* The JS `Map` is modelled as an ordered association list (`RoomStore`);
  `storeSet` replaces an existing key in place (JS `Map.set` keeps the
  original insertion position) and otherwise appends, which preserves the
  iteration order the `disconnect` handler relies on.
* Socket ids, player ids, nicknames and room ids are `String`s; a seat's
  `id` field is `Option String` (`null` when disconnected).
* `Math.random().toString(36)` is modelled as an oracle character list
  `rand`; `generateRoomId` performs the `slice(2, 8).toUpperCase()` step
  on it, exactly as the source does.
* The `setTimeout` handle is modelled as a `Bool` flag `cleanupTimer`
  (armed or not); the timer callback (`cleanupFire`) can only run while
  the flag is armed, which is exactly when the JS handle is uncleared.
* Broadcasts are collected in an `Emit` list; callback replies to
  create/join/rejoin are a `Reply` value.
-/

namespace XOServer

/-- A game mark, `'X'` or `'O'` in the source. -/
inductive Mark where
  | X
  | O
deriving DecidableEq, Repr

/-- JS `player.symbol === 'X' ? 'O' : 'X'` (src/index.js line 165). -/
def Mark.other : Mark → Mark
  | .X => .O
  | .O => .X

/-- A board cell: `null | 'X' | 'O'`. -/
abbrev Cell := Option Mark

/-- The 9-cell board array. -/
abbrev Board := List Cell

/-- A seat record: `{ id, playerId, nickname, symbol, points }`. -/
structure Player where
  id : Option String
  playerId : String
  nickname : String
  symbol : Mark
  points : Nat
deriving DecidableEq, Repr

/-- A room record: `{ players, board, currentTurn, round, readySet, cleanupTimer }`.
`readySet` is the JS `Set<socketId>` in insertion order; `cleanupTimer`
is `true` exactly when a cleanup timeout is pending. -/
structure Room where
  players : List Player
  board : Board
  currentTurn : Mark
  round : Nat
  readySet : List String
  cleanupTimer : Bool
deriving DecidableEq, Repr

/-- The global `rooms` map, as an ordered association list. -/
abbrev RoomStore := List (String × Room)

/-- JS `rooms.get(roomId)`. -/
def storeGet : RoomStore → String → Option Room
  | [], _ => none
  | e :: rest, rid => if e.1 = rid then some e.2 else storeGet rest rid

/-- JS `rooms.set(roomId, room)`: replace in place if present, else append. -/
def storeSet : RoomStore → String → Room → RoomStore
  | [], rid, room => [(rid, room)]
  | e :: rest, rid, room =>
    if e.1 = rid then (rid, room) :: rest else e :: storeSet rest rid room

/-- JS `rooms.delete(roomId)`. -/
def storeDelete : RoomStore → String → RoomStore
  | [], _ => []
  | e :: rest, rid => if e.1 = rid then rest else e :: storeDelete rest rid

/-- JS `Math.random().toString(36).slice(2, 8).toUpperCase()`, with the string
form of the random number supplied as the oracle `rand`. -/
def generateRoomId (rand : List Char) : String :=
  String.mk (((rand.drop 2).take 6).map Char.toUpper)

/-- The 8 fixed win triples, in the source's scan order
(rows, then columns, then diagonals). -/
def wins : List (Nat × Nat × Nat) :=
  [(0, 1, 2), (3, 4, 5), (6, 7, 8),
   (0, 3, 6), (1, 4, 7), (2, 5, 8),
   (0, 4, 8), (2, 4, 6)]

/-- JS `board[i]` on the 9-cell array. -/
def cellAt (board : Board) (i : Nat) : Cell := board.getD i none

/-- JS `board[a] && board[a] === board[b] && board[a] === board[c]`. -/
def lineWin (board : Board) (t : Nat × Nat × Nat) : Bool :=
  match cellAt board t.1 with
  | none => false
  | some m => cellAt board t.2.1 == some m && cellAt board t.2.2 == some m

/-- JS `checkWinner(board)`: returns the first matching triple's mark and
line, or `{winner: null, line: null}`. -/
def checkWinner (board : Board) : Option Mark × Option (Nat × Nat × Nat) :=
  match wins.find? (lineWin board) with
  | some t => (cellAt board t.1, some t)
  | none => (none, none)

/-- JS `activePlayersCount(room)`: seats with a live connection. -/
def activePlayersCount (room : Room) : Nat :=
  (room.players.filter (fun p => p.id.isSome)).length

/-- JS `scheduleRoomCleanup(roomId)`: arm the cleanup timer, a no-op when the
room is absent or a timer is already pending. -/
def scheduleRoomCleanup (rid : String) (store : RoomStore) : RoomStore :=
  match storeGet store rid with
  | none => store
  | some room =>
    if room.cleanupTimer then store
    else storeSet store rid { room with cleanupTimer := true }

/-- The body of the `setTimeout` callback in `scheduleRoomCleanup`: delete
the room if it is still fully vacated, otherwise clear the timer. -/
def cleanupFire (rid : String) (store : RoomStore) : RoomStore :=
  match storeGet store rid with
  | none => store
  | some room =>
    if activePlayersCount room = 0 then storeDelete store rid
    else storeSet store rid { room with cleanupTimer := false }

/-- A broadcast pushed to the room's connections. -/
inductive Emit where
  | startGame (rid : String)
  | updateBoard (board : Board) (currentTurn : Mark) (lastMoveIndex : Int)
  | roundOver (winner : Option Mark) (line : Option (Nat × Nat × Nat)) (round : Nat)
  | newRound (round : Nat) (board : Board) (currentTurn : Mark)
  | playerLeft (playerId : String) (nickname : String) (symbol : Mark)
  | scoreReset
deriving DecidableEq, Repr

/-- Discriminator for the `round-over` broadcast. -/
def Emit.isRoundOver : Emit → Bool
  | .roundOver _ _ _ => true
  | _ => false

/-- The acknowledgment callback value for create/join/rejoin. -/
inductive Reply where
  | okRoomId (rid : String)
  | okJoined
  | okSnapshot
  | err (message : String)
deriving DecidableEq, Repr

/-- The room record built by the `create-room` handler. -/
def initialRoom (sid playerId nickname : String) : Room :=
  { players := [{ id := some sid, playerId := playerId, nickname := nickname,
                  symbol := .X, points := 0 }],
    board := List.replicate 9 none,
    currentTurn := .X,
    round := 1,
    readySet := [],
    cleanupTimer := false }

/-- The `create-room` handler. Note: the generated id is stored without
any collision check against live rooms. -/
def createRoom (sid nickname playerId : String) (rand : List Char)
    (store : RoomStore) : RoomStore × Reply × List Emit :=
  if nickname = "" ∨ playerId = "" then
    (store, .err "nickname and playerId are required", [])
  else
    let roomId := generateRoomId rand
    (storeSet store roomId (initialRoom sid playerId nickname),
     .okRoomId roomId, [])

/-- The `join-room` handler. -/
def joinRoom (sid nickname playerId rid : String) (store : RoomStore) :
    RoomStore × Reply × List Emit :=
  match storeGet store rid with
  | none => (store, .err "Room not found", [])
  | some room =>
    if nickname = "" ∨ playerId = "" then
      (store, .err "nickname and playerId are required", [])
    else if 2 ≤ room.players.length then
      (store, .err "Room is full", [])
    else
      (storeSet store rid
        { room with players := room.players ++
            [{ id := some sid, playerId := playerId, nickname := nickname,
               symbol := .O, points := 0 }] },
       .okJoined, [.startGame rid])

/-- In-place mutation of the first list element satisfying `p`
(the JS pattern `const x = l.find(p); x.field = v`). -/
def updateFirst (p : Player → Bool) (f : Player → Player) : List Player → List Player
  | [] => []
  | x :: xs => if p x then f x :: xs else x :: updateFirst p f xs

/-- The `rejoin-room` handler. -/
def rejoinRoom (sid rid playerId : String) (store : RoomStore) :
    RoomStore × Reply × List Emit :=
  match storeGet store rid with
  | none => (store, .err "Room not found", [])
  | some room =>
    match room.players.find? (fun p => p.playerId == playerId) with
    | none => (store, .err "Seat not found", [])
    | some _ =>
      (storeSet store rid
        { room with
          players := updateFirst (fun p => p.playerId == playerId)
            (fun p => { p with id := some sid }) room.players,
          cleanupTimer := false },
       .okSnapshot, [])

/-- The `make-move` handler. -/
def makeMove (sid rid : String) (index : Int) (store : RoomStore) :
    RoomStore × List Emit :=
  match storeGet store rid with
  | none => (store, [])
  | some room =>
    match room.players.find? (fun p => p.id == some sid) with
    | none => (store, [])
    | some player =>
      if index < 0 ∨ 8 < index then (store, [])
      else if (cellAt room.board index.toNat).isSome then (store, [])
      else if room.currentTurn ≠ player.symbol then (store, [])
      else
        let board' := room.board.set index.toNat (some player.symbol)
        let turn' := player.symbol.other
        let w := checkWinner board'
        let isDraw := w.1.isNone && board'.all (fun c => c.isSome)
        if w.1.isSome || isDraw then
          let players' :=
            match w.1 with
            | some m =>
              updateFirst (fun p => p.symbol == m)
                (fun p => { p with points := p.points + 1 }) room.players
            | none => room.players
          (storeSet store rid
            { room with board := board', currentTurn := turn',
                        players := players', readySet := [] },
           [.updateBoard board' turn' index, .roundOver w.1 w.2 room.round])
        else
          (storeSet store rid { room with board := board', currentTurn := turn' },
           [.updateBoard board' turn' index])

/-- JS `room.readySet.add(socketId)` (JS `Set` insertion order). -/
def readyAdd (sid : String) (l : List String) : List String :=
  if sid ∈ l then l else l ++ [sid]

/-- The `ready-next-round` handler. -/
def readyNextRound (sid rid : String) (store : RoomStore) :
    RoomStore × List Emit :=
  match storeGet store rid with
  | none => (store, [])
  | some room =>
    let rs := readyAdd sid room.readySet
    if 2 ≤ rs.length then
      let round' := room.round + 1
      let board' : Board := List.replicate 9 none
      let turn' : Mark := if round' % 2 = 1 then .X else .O
      (storeSet store rid
        { room with round := round', board := board', currentTurn := turn',
                    readySet := [] },
       [.newRound round' board' turn'])
    else
      (storeSet store rid { room with readySet := rs }, [])

/-- The `reset-scores` handler. -/
def resetScores (rid : String) (store : RoomStore) : RoomStore × List Emit :=
  match storeGet store rid with
  | none => (store, [])
  | some room =>
    (storeSet store rid
      { room with players := room.players.map (fun p => { p with points := 0 }) },
     [.scoreReset])

/-- JS `player.id = null`: mark the first seat holding the socket as offline. -/
def markOffline (sid : String) (room : Room) : Room :=
  { room with
    players := updateFirst (fun p => p.id == some sid)
      (fun p => { p with id := none }) room.players }

/-- The per-room effect of the `disconnect` handler on the first room
containing the socket: mark the seat offline, then (inlining the
`scheduleRoomCleanup` call made when no active socket remains) arm the
cleanup timer if it is not already pending. -/
def disconnectRoom (sid : String) (room : Room) : Room :=
  if activePlayersCount (markOffline sid room) = 0 ∧
      (markOffline sid room).cleanupTimer = false then
    { markOffline sid room with cleanupTimer := true }
  else markOffline sid room

/-- The `disconnect` handler: iterate the store in insertion order, handle
the first room holding a seat with the disconnected socket id, and `break`. -/
def disconnectList (sid : String) : RoomStore → RoomStore × List Emit
  | [] => ([], [])
  | (rid, room) :: rest =>
    match room.players.find? (fun p => p.id == some sid) with
    | some player =>
      ((rid, disconnectRoom sid room) :: rest,
       [.playerLeft player.playerId player.nickname player.symbol])
    | none =>
      let r := disconnectList sid rest
      ((rid, room) :: r.1, r.2)

/-- One inbound event, with all external inputs (socket id, payload,
randomness oracle) as parameters. -/
inductive Act where
  | create (sid nickname playerId : String) (rand : List Char)
  | join (sid nickname playerId rid : String)
  | rejoin (sid rid playerId : String)
  | move (sid rid : String) (index : Int)
  | ready (sid rid : String)
  | reset (rid : String)
  | disconnect (sid : String)
  | fire (rid : String)
deriving DecidableEq, Repr

/-- Apply one event to the store. A `fire` step is only effective while
the room's cleanup timer is pending, since a cleared JS timeout never
runs its callback. -/
def applyAct : Act → RoomStore → RoomStore
  | .create sid n p r, store => (createRoom sid n p r store).1
  | .join sid n p rid, store => (joinRoom sid n p rid store).1
  | .rejoin sid rid p, store => (rejoinRoom sid rid p store).1
  | .move sid rid i, store => (makeMove sid rid i store).1
  | .ready sid rid, store => (readyNextRound sid rid store).1
  | .reset rid, store => (resetScores rid store).1
  | .disconnect sid, store => (disconnectList sid store).1
  | .fire rid, store =>
    match storeGet store rid with
    | some room => if room.cleanupTimer then cleanupFire rid store else store
    | none => store

/-- Run a sequence of events from the empty store; `runActs acts` is the
generic reachable state. -/
def runActs (acts : List Act) : RoomStore :=
  acts.foldl (fun s a => applyAct a s) []

/-! Concrete scenarios used for counterexamples and witnesses. -/

/-- Oracle for `Math.random().toString(36)` yielding room id `"R"`. -/
def randR : List Char := ['0', '.', 'r']

/-- Oracle for `Math.random().toString(36)` yielding room id `"AB"`. -/
def randAB : List Char := ['0', '.', 'a', 'b']

/-- A game in room `"R"`: creator `p1` (socket `s1`, mark X), joiner `p2`
(socket `s2`, mark O), then alternating moves at cells 0, 3, 1, 4. -/
def gameActs : List Act :=
  [.create "s1" "A" "p1" randR, .join "s2" "B" "p2" "R",
   .move "s1" "R" 0, .move "s2" "R" 3, .move "s1" "R" 1, .move "s2" "R" 4]

/-- The store after `gameActs`: X holds cells 0 and 1, O holds 3 and 4,
it is X's turn in round 1. -/
def gameStore : RoomStore := runActs gameActs

/-- Room `"R"` right after create + join, before any move. -/
def joinedStore : RoomStore :=
  runActs [.create "s1" "A" "p1" randR, .join "s2" "B" "p2" "R"]

/-- The room record held at `"R"` in `joinedStore`. -/
def joinedRoom : Room :=
  { players := [{ id := some "s1", playerId := "p1", nickname := "A",
                  symbol := .X, points := 0 },
                { id := some "s2", playerId := "p2", nickname := "B",
                  symbol := .O, points := 0 }],
    board := List.replicate 9 none, currentTurn := .X, round := 1,
    readySet := [], cleanupTimer := false }

/-- The creator's seat in `joinedRoom`. -/
def seatX : Player :=
  { id := some "s1", playerId := "p1", nickname := "A", symbol := .X, points := 0 }

/-- The room `joinedRoom` with one ready acknowledgment already recorded. -/
def readyRoom : Room := { joinedRoom with readySet := ["a"] }

/-- A store holding `readyRoom` at `"R"`. -/
def readyStore : RoomStore := [("R", readyRoom)]

/-- The room `joinedRoom` after the round-advance out of `readyRoom`: round 2,
empty board, O to start. -/
def advancedRoom : Room := { joinedRoom with round := 2, currentTurn := .O }

/-- A room whose two seats are both disconnected, with a pending cleanup
timer and some accumulated points. -/
def droppedRoom : Room :=
  { players := [{ id := none, playerId := "p1", nickname := "A",
                  symbol := .X, points := 3 },
                { id := none, playerId := "p2", nickname := "B",
                  symbol := .O, points := 1 }],
    board := List.replicate 9 none, currentTurn := .X, round := 2,
    readySet := [], cleanupTimer := true }

/-- A store holding `droppedRoom` at `"R"`. -/
def droppedStore : RoomStore := [("R", droppedRoom)]

/-- The store after one creation whose generated id is `"AB"`. -/
def collideStore : RoomStore := runActs [.create "s1" "A" "p1" randAB]

/-! ### Lemmas about the store operations -/

theorem storeGet_storeSet (store : RoomStore) (k k' : String) (r : Room) :
    storeGet (storeSet store k r) k' = if k = k' then some r else storeGet store k' := by
  induction store with
  | nil => simp [storeSet, storeGet]
  | cons e rest ih =>
    by_cases h : e.1 = k
    · rw [show storeSet (e :: rest) k r = (k, r) :: rest by simp [storeSet, h]]
      by_cases h' : k = k'
      · simp [storeGet, h']
      · have h2 : ¬ e.1 = k' := fun hk => h' (h.symm.trans hk)
        simp [storeGet, h', h2]
    · rw [show storeSet (e :: rest) k r = e :: storeSet rest k r by simp [storeSet, h]]
      by_cases h' : e.1 = k'
      · have h2 : ¬ k = k' := fun hk => h (h'.trans hk.symm)
        simp [storeGet, h', h2]
      · simp [storeGet, h', ih]

theorem storeGet_mem (store : RoomStore) (k : String) (r : Room)
    (h : storeGet store k = some r) : (k, r) ∈ store := by
  induction store with
  | nil => simp [storeGet] at h
  | cons e rest ih =>
    simp only [storeGet] at h
    by_cases he : e.1 = k
    · rw [if_pos he] at h
      obtain ⟨e1, e2⟩ := e
      obtain rfl : e1 = k := he
      obtain rfl : e2 = r := Option.some.inj h
      exact List.mem_cons_self _ _
    · rw [if_neg he] at h
      exact List.mem_cons_of_mem _ (ih h)

theorem storeGet_eq_none_of_not_mem (store : RoomStore) (k : String)
    (h : k ∉ store.map Prod.fst) : storeGet store k = none := by
  induction store with
  | nil => simp [storeGet]
  | cons e rest ih =>
    simp only [List.map_cons, List.mem_cons] at h
    push_neg at h
    have h1 : ¬ e.1 = k := fun hk => h.1 hk.symm
    simp [storeGet, h1, ih h.2]

theorem storeGet_storeDelete_ne (store : RoomStore) (k k' : String) (h : k ≠ k') :
    storeGet (storeDelete store k) k' = storeGet store k' := by
  induction store with
  | nil => simp [storeDelete]
  | cons e rest ih =>
    by_cases he : e.1 = k
    · rw [show storeDelete (e :: rest) k = rest by simp [storeDelete, he]]
      have h2 : ¬ e.1 = k' := fun hk => h (he.symm.trans hk)
      simp [storeGet, h2]
    · rw [show storeDelete (e :: rest) k = e :: storeDelete rest k
        by simp [storeDelete, he]]
      by_cases he' : e.1 = k' <;> simp [storeGet, he', ih]

theorem storeGet_storeDelete_self (store : RoomStore) (k : String)
    (h : (store.map Prod.fst).Nodup) : storeGet (storeDelete store k) k = none := by
  induction store with
  | nil => simp [storeDelete, storeGet]
  | cons e rest ih =>
    simp only [List.map_cons, List.nodup_cons] at h
    by_cases he : e.1 = k
    · rw [show storeDelete (e :: rest) k = rest by simp [storeDelete, he]]
      refine storeGet_eq_none_of_not_mem _ _ ?_
      have := h.1
      rw [he] at this
      exact this
    · rw [show storeDelete (e :: rest) k = e :: storeDelete rest k
        by simp [storeDelete, he]]
      simp [storeGet, he, ih h.2]

theorem mem_storeSet (store : RoomStore) (k : String) (r : Room) :
    ∀ e ∈ storeSet store k r, e = (k, r) ∨ e ∈ store := by
  induction store with
  | nil => simp [storeSet]
  | cons e₀ rest ih =>
    intro e he
    simp only [storeSet] at he
    by_cases h : e₀.1 = k
    · rw [if_pos h] at he
      rcases List.mem_cons.mp he with h1 | h1
      · exact Or.inl h1
      · exact Or.inr (List.mem_cons_of_mem _ h1)
    · rw [if_neg h] at he
      rcases List.mem_cons.mp he with h1 | h1
      · exact Or.inr (h1 ▸ List.mem_cons_self _ _)
      · rcases ih e h1 with h2 | h2
        · exact Or.inl h2
        · exact Or.inr (List.mem_cons_of_mem _ h2)

theorem mem_storeDelete (store : RoomStore) (k : String) :
    ∀ e ∈ storeDelete store k, e ∈ store := by
  induction store with
  | nil => simp [storeDelete]
  | cons e₀ rest ih =>
    intro e he
    simp only [storeDelete] at he
    by_cases h : e₀.1 = k
    · rw [if_pos h] at he
      exact List.mem_cons_of_mem _ he
    · rw [if_neg h] at he
      rcases List.mem_cons.mp he with h1 | h1
      · exact h1 ▸ List.mem_cons_self _ _
      · exact List.mem_cons_of_mem _ (ih e h1)

/-! ### Lemmas about `updateFirst` and `readyAdd` -/

theorem updateFirst_length (p : Player → Bool) (f : Player → Player) (l : List Player) :
    (updateFirst p f l).length = l.length := by
  induction l with
  | nil => simp [updateFirst]
  | cons x xs ih =>
    simp only [updateFirst]
    by_cases h : p x <;> simp [h, ih]

theorem updateFirst_map {α : Type} (p : Player → Bool) (f : Player → Player)
    (proj : Player → α) (hf : ∀ x, proj (f x) = proj x) (l : List Player) :
    (updateFirst p f l).map proj = l.map proj := by
  induction l with
  | nil => simp [updateFirst]
  | cons x xs ih =>
    simp only [updateFirst]
    by_cases h : p x <;> simp [h, ih, hf]

theorem readyAdd_length_iff (sid : String) (l : List String) (h : l.Nodup) :
    2 ≤ (readyAdd sid l).length ↔ ∃ s ∈ l, s ≠ sid := by
  unfold readyAdd
  by_cases hm : sid ∈ l
  · rw [if_pos hm]
    constructor
    · intro hlen
      match l, hm, hlen, h with
      | a :: b :: t, hm, hlen, h =>
        by_cases ha : a = sid
        · refine ⟨b, List.mem_cons_of_mem _ (List.mem_cons_self _ _), ?_⟩
          intro hb
          exact (List.nodup_cons.mp h).1 (hb ▸ ha ▸ List.mem_cons_self _ _)
        · exact ⟨a, List.mem_cons_self _ _, ha⟩
    · rintro ⟨s, hs, hne⟩
      match l, hm, hs with
      | a :: t, hm, hs =>
        have ht : t ≠ [] := by
          rcases List.mem_cons.mp hs with h1 | h1
        -- if s = a then sid ∈ t (since sid ≠ a), else s ∈ t
          · rcases List.mem_cons.mp hm with h2 | h2
            · exact absurd (h2 ▸ h1) hne
            · exact List.ne_nil_of_mem h2
          · exact List.ne_nil_of_mem h1
        have : 0 < t.length := List.length_pos.mpr ht
        simp only [List.length_cons]
        omega
  · rw [if_neg hm]
    simp only [List.length_append, List.length_cons, List.length_nil]
    constructor
    · intro hlen
      match l, hlen with
      | a :: t, _ =>
        refine ⟨a, List.mem_cons_self _ _, ?_⟩
        intro ha
        exact hm (ha ▸ List.mem_cons_self _ _)
    · rintro ⟨s, hs, _⟩
      have : 0 < l.length := List.length_pos.mpr (List.ne_nil_of_mem hs)
      omega

theorem cellAt_set (l : Board) (i : Nat) (v : Cell) (h : i < l.length) :
    cellAt (l.set i v) i = v := by
  simp [cellAt, List.getD_eq_getElem?_getD, List.getElem?_set_self, h]

/-! ### Characterization of the `make-move` handler -/

theorem makeMove_no_room (sid rid : String) (i : Int) (store : RoomStore)
    (h : storeGet store rid = none) : makeMove sid rid i store = (store, []) := by
  simp [makeMove, h]

theorem makeMove_no_seat (sid rid : String) (i : Int) (store : RoomStore) (room : Room)
    (h : storeGet store rid = some room)
    (hf : room.players.find? (fun p => p.id == some sid) = none) :
    makeMove sid rid i store = (store, []) := by
  simp [makeMove, h, hf]

theorem makeMove_reject_index (sid rid : String) (i : Int) (store : RoomStore)
    (room : Room) (player : Player)
    (h : storeGet store rid = some room)
    (hf : room.players.find? (fun p => p.id == some sid) = some player)
    (hi : i < 0 ∨ 8 < i) : makeMove sid rid i store = (store, []) := by
  simp [makeMove, h, hf, hi]

theorem makeMove_reject_cell (sid rid : String) (i : Int) (store : RoomStore)
    (room : Room) (player : Player)
    (h : storeGet store rid = some room)
    (hf : room.players.find? (fun p => p.id == some sid) = some player)
    (hi : ¬ (i < 0 ∨ 8 < i))
    (hc : (cellAt room.board i.toNat).isSome = true) :
    makeMove sid rid i store = (store, []) := by
  simp [makeMove, h, hf, hi, hc]

theorem makeMove_reject_turn (sid rid : String) (i : Int) (store : RoomStore)
    (room : Room) (player : Player)
    (h : storeGet store rid = some room)
    (hf : room.players.find? (fun p => p.id == some sid) = some player)
    (hi : ¬ (i < 0 ∨ 8 < i))
    (hc : (cellAt room.board i.toNat).isSome = false)
    (ht : room.currentTurn ≠ player.symbol) :
    makeMove sid rid i store = (store, []) := by
  simp [makeMove, h, hf, hi, hc, ht]

theorem makeMove_accept (sid rid : String) (i : Int) (store : RoomStore)
    (room : Room) (player : Player)
    (h : storeGet store rid = some room)
    (hf : room.players.find? (fun p => p.id == some sid) = some player)
    (hi : ¬ (i < 0 ∨ 8 < i))
    (hc : (cellAt room.board i.toNat).isSome = false)
    (ht : room.currentTurn = player.symbol) :
    ∃ room₂ rest,
      makeMove sid rid i store =
        (storeSet store rid room₂,
         .updateBoard (room.board.set i.toNat (some player.symbol)) player.symbol.other i
           :: rest) ∧
      room₂.board = room.board.set i.toNat (some player.symbol) ∧
      room₂.currentTurn = player.symbol.other ∧
      room₂.round = room.round ∧
      room₂.cleanupTimer = room.cleanupTimer ∧
      room₂.players.map (fun p => (p.id, p.playerId, p.nickname, p.symbol)) =
        room.players.map (fun p => (p.id, p.playerId, p.nickname, p.symbol)) := by
  have ht' : ¬ room.currentTurn ≠ player.symbol := fun hne => hne ht
  simp only [makeMove, h, hf]
  rw [if_neg hi]
  simp only [hc, Bool.false_eq_true, if_false]
  rw [if_neg ht']
  by_cases hw :
      ((checkWinner (room.board.set i.toNat (some player.symbol))).1.isSome ||
        ((checkWinner (room.board.set i.toNat (some player.symbol))).1.isNone &&
          (room.board.set i.toNat (some player.symbol)).all (fun c => c.isSome))) = true
  · rw [if_pos hw]
    refine ⟨_, _, rfl, rfl, rfl, rfl, rfl, ?_⟩
    cases hwm : (checkWinner (room.board.set i.toNat (some player.symbol))).1 with
    | none => rfl
    | some m =>
      show List.map (fun p => (p.id, p.playerId, p.nickname, p.symbol))
          (updateFirst (fun p => p.symbol == m)
            (fun p => { p with points := p.points + 1 }) room.players) =
        List.map (fun p => (p.id, p.playerId, p.nickname, p.symbol)) room.players
      exact updateFirst_map (fun p => p.symbol == m)
        (fun p => { p with points := p.points + 1 })
        (fun p => (p.id, p.playerId, p.nickname, p.symbol)) (fun x => rfl) room.players
  · rw [if_neg hw]
    exact ⟨_, _, rfl, rfl, rfl, rfl, rfl, rfl⟩

/-! ### Characterization of the `ready-next-round` handler -/

theorem readyNextRound_no_room (sid rid : String) (store : RoomStore)
    (h : storeGet store rid = none) : readyNextRound sid rid store = (store, []) := by
  simp [readyNextRound, h]

theorem readyNextRound_advance (sid rid : String) (store : RoomStore) (room : Room)
    (h : storeGet store rid = some room)
    (h2 : 2 ≤ (readyAdd sid room.readySet).length) :
    readyNextRound sid rid store =
      (storeSet store rid
        { room with round := room.round + 1, board := List.replicate 9 none,
                    currentTurn := if (room.round + 1) % 2 = 1 then .X else .O,
                    readySet := [] },
       [.newRound (room.round + 1) (List.replicate 9 none)
          (if (room.round + 1) % 2 = 1 then .X else .O)]) := by
  simp [readyNextRound, h, h2]

theorem readyNextRound_wait (sid rid : String) (store : RoomStore) (room : Room)
    (h : storeGet store rid = some room)
    (h2 : ¬ 2 ≤ (readyAdd sid room.readySet).length) :
    readyNextRound sid rid store =
      (storeSet store rid { room with readySet := readyAdd sid room.readySet }, []) := by
  simp [readyNextRound, h, h2]

/-! ### Characterization of the remaining handlers -/

theorem createRoom_invalid (sid nickname playerId : String) (rand : List Char)
    (store : RoomStore) (h : nickname = "" ∨ playerId = "") :
    createRoom sid nickname playerId rand store =
      (store, .err "nickname and playerId are required", []) := by
  simp [createRoom, h]

theorem createRoom_valid (sid nickname playerId : String) (rand : List Char)
    (store : RoomStore) (hn : nickname ≠ "") (hp : playerId ≠ "") :
    createRoom sid nickname playerId rand store =
      (storeSet store (generateRoomId rand) (initialRoom sid playerId nickname),
       .okRoomId (generateRoomId rand), []) := by
  simp [createRoom, hn, hp]

theorem joinRoom_no_room (sid nickname playerId rid : String) (store : RoomStore)
    (h : storeGet store rid = none) :
    joinRoom sid nickname playerId rid store = (store, .err "Room not found", []) := by
  simp [joinRoom, h]

theorem joinRoom_invalid (sid nickname playerId rid : String) (store : RoomStore)
    (room : Room) (h : storeGet store rid = some room)
    (hv : nickname = "" ∨ playerId = "") :
    joinRoom sid nickname playerId rid store =
      (store, .err "nickname and playerId are required", []) := by
  simp [joinRoom, h, hv]

theorem joinRoom_full (sid nickname playerId rid : String) (store : RoomStore)
    (room : Room) (h : storeGet store rid = some room)
    (hv : ¬ (nickname = "" ∨ playerId = "")) (hl : 2 ≤ room.players.length) :
    joinRoom sid nickname playerId rid store = (store, .err "Room is full", []) := by
  simp [joinRoom, h, hv, hl]

theorem joinRoom_success (sid nickname playerId rid : String) (store : RoomStore)
    (room : Room) (h : storeGet store rid = some room)
    (hv : ¬ (nickname = "" ∨ playerId = "")) (hl : ¬ 2 ≤ room.players.length) :
    joinRoom sid nickname playerId rid store =
      (storeSet store rid
        { room with players := room.players ++
            [{ id := some sid, playerId := playerId, nickname := nickname,
               symbol := .O, points := 0 }] },
       .okJoined, [.startGame rid]) := by
  simp [joinRoom, h, hv, hl]

theorem rejoinRoom_no_room (sid rid playerId : String) (store : RoomStore)
    (h : storeGet store rid = none) :
    rejoinRoom sid rid playerId store = (store, .err "Room not found", []) := by
  simp [rejoinRoom, h]

theorem rejoinRoom_no_seat (sid rid playerId : String) (store : RoomStore)
    (room : Room) (h : storeGet store rid = some room)
    (hf : room.players.find? (fun p => p.playerId == playerId) = none) :
    rejoinRoom sid rid playerId store = (store, .err "Seat not found", []) := by
  simp [rejoinRoom, h, hf]

theorem rejoinRoom_success (sid rid playerId : String) (store : RoomStore)
    (room : Room) (p : Player) (h : storeGet store rid = some room)
    (hf : room.players.find? (fun q => q.playerId == playerId) = some p) :
    rejoinRoom sid rid playerId store =
      (storeSet store rid
        { room with
          players := updateFirst (fun q => q.playerId == playerId)
            (fun q => { q with id := some sid }) room.players,
          cleanupTimer := false },
       .okSnapshot, []) := by
  simp [rejoinRoom, h, hf]

theorem resetScores_no_room (rid : String) (store : RoomStore)
    (h : storeGet store rid = none) : resetScores rid store = (store, []) := by
  simp [resetScores, h]

theorem resetScores_some (rid : String) (store : RoomStore) (room : Room)
    (h : storeGet store rid = some room) :
    resetScores rid store =
      (storeSet store rid
        { room with players := room.players.map (fun p => { p with points := 0 }) },
       [.scoreReset]) := by
  simp [resetScores, h]

theorem fire_no_room (rid : String) (store : RoomStore)
    (h : storeGet store rid = none) : applyAct (.fire rid) store = store := by
  simp [applyAct, h]

theorem fire_not_armed (rid : String) (store : RoomStore) (room : Room)
    (h : storeGet store rid = some room) (ht : room.cleanupTimer = false) :
    applyAct (.fire rid) store = store := by
  simp [applyAct, h, ht]

theorem fire_delete (rid : String) (store : RoomStore) (room : Room)
    (h : storeGet store rid = some room) (ht : room.cleanupTimer = true)
    (hc : activePlayersCount room = 0) :
    applyAct (.fire rid) store = storeDelete store rid := by
  simp [applyAct, cleanupFire, h, ht, hc]

theorem fire_clear (rid : String) (store : RoomStore) (room : Room)
    (h : storeGet store rid = some room) (ht : room.cleanupTimer = true)
    (hc : ¬ activePlayersCount room = 0) :
    applyAct (.fire rid) store = storeSet store rid { room with cleanupTimer := false } := by
  simp [applyAct, cleanupFire, h, ht, hc]

/-! ### Characterization of the `disconnect` handler -/

theorem disconnectRoom_round (sid : String) (room : Room) :
    (disconnectRoom sid room).round = room.round := by
  unfold disconnectRoom
  split <;> simp [markOffline]

theorem disconnectRoom_board (sid : String) (room : Room) :
    (disconnectRoom sid room).board = room.board := by
  unfold disconnectRoom
  split <;> simp [markOffline]

theorem disconnectRoom_currentTurn (sid : String) (room : Room) :
    (disconnectRoom sid room).currentTurn = room.currentTurn := by
  unfold disconnectRoom
  split <;> simp [markOffline]

theorem disconnectRoom_readySet (sid : String) (room : Room) :
    (disconnectRoom sid room).readySet = room.readySet := by
  unfold disconnectRoom
  split <;> simp [markOffline]

theorem disconnectRoom_players (sid : String) (room : Room) :
    (disconnectRoom sid room).players =
      updateFirst (fun p => p.id == some sid) (fun p => { p with id := none })
        room.players := by
  unfold disconnectRoom
  split <;> simp [markOffline]

theorem disconnectRoom_seat_map (sid : String) (room : Room) :
    (disconnectRoom sid room).players.map (fun p => (p.playerId, p.nickname, p.symbol, p.points)) =
      room.players.map (fun p => (p.playerId, p.nickname, p.symbol, p.points)) := by
  rw [disconnectRoom_players]
  exact updateFirst_map (fun p => p.id == some sid) (fun p => { p with id := none })
    (fun p => (p.playerId, p.nickname, p.symbol, p.points)) (fun x => rfl) room.players

theorem disconnectRoom_timer_flip (sid : String) (room : Room)
    (hT : room.cleanupTimer = false)
    (hT' : (disconnectRoom sid room).cleanupTimer = true) :
    activePlayersCount (disconnectRoom sid room) = 0 := by
  unfold disconnectRoom at hT' ⊢
  split_ifs at hT' ⊢ with hcond
  · simpa [activePlayersCount] using hcond.1
  · exact absurd hT' (by simp [markOffline, hT])

theorem activePlayersCount_pos (sid : String) (room : Room) (p : Player)
    (h : room.players.find? (fun q => q.id == some sid) = some p) :
    1 ≤ activePlayersCount room := by
  have hp := List.find?_some h
  have hmem := List.mem_of_find?_eq_some h
  have hid : p.id.isSome = true := by
    have : p.id = some sid := by simpa using hp
    simp [this]
  have hm : p ∈ room.players.filter (fun q => q.id.isSome) :=
    List.mem_filter.mpr ⟨hmem, hid⟩
  have := List.length_pos.mpr (List.ne_nil_of_mem hm)
  simpa [activePlayersCount] using this

theorem disconnectList_no_match (sid : String) (store : RoomStore)
    (h : ∀ e ∈ store, e.2.players.find? (fun p => p.id == some sid) = none) :
    disconnectList sid store = (store, []) := by
  induction store with
  | nil => simp [disconnectList]
  | cons e rest ih =>
    obtain ⟨rid, room⟩ := e
    have h0 := h _ (List.mem_cons_self _ _)
    have ih' := ih (fun e he => h e (List.mem_cons_of_mem _ he))
    simp only at h0
    simp [disconnectList, h0, ih']

theorem disconnectList_split (sid : String) (pre post : RoomStore) (rid : String)
    (room : Room) (player : Player)
    (hpre : ∀ e ∈ pre, e.2.players.find? (fun p => p.id == some sid) = none)
    (hp : room.players.find? (fun p => p.id == some sid) = some player) :
    disconnectList sid (pre ++ (rid, room) :: post) =
      (pre ++ (rid, disconnectRoom sid room) :: post,
       [.playerLeft player.playerId player.nickname player.symbol]) := by
  induction pre with
  | nil => simp [disconnectList, hp]
  | cons e rest ih =>
    obtain ⟨k, r⟩ := e
    have h0 := hpre _ (List.mem_cons_self _ _)
    have ih' := ih (fun e he => hpre e (List.mem_cons_of_mem _ he))
    simp only at h0
    simp [disconnectList, h0, ih']

theorem storeGet_disconnectList (sid : String) (store : RoomStore) (rid : String)
    (room' : Room) (h' : storeGet (disconnectList sid store).1 rid = some room') :
    ∃ room, storeGet store rid = some room ∧
      (room' = room ∨ ∃ p, room.players.find? (fun q => q.id == some sid) = some p ∧
        room' = disconnectRoom sid room) := by
  induction store with
  | nil => simp [disconnectList, storeGet] at h'
  | cons e rest ih =>
    obtain ⟨k, r⟩ := e
    cases hf : r.players.find? (fun p => p.id == some sid) with
    | some player =>
      simp only [disconnectList, hf] at h'
      by_cases hk : k = rid
      · rw [show storeGet ((k, disconnectRoom sid r) :: rest) rid =
            some (disconnectRoom sid r) by simp [storeGet, hk]] at h'
        exact ⟨r, by simp [storeGet, hk],
          Or.inr ⟨player, hf, (Option.some.inj h').symm⟩⟩
      · rw [show storeGet ((k, disconnectRoom sid r) :: rest) rid =
            storeGet rest rid by simp [storeGet, hk]] at h'
        exact ⟨room', by simp [storeGet, hk, h'], Or.inl rfl⟩
    | none =>
      simp only [disconnectList, hf] at h'
      by_cases hk : k = rid
      · rw [show storeGet ((k, r) :: (disconnectList sid rest).1) rid = some r
            by simp [storeGet, hk]] at h'
        exact ⟨r, by simp [storeGet, hk], Or.inl (Option.some.inj h').symm⟩
      · rw [show storeGet ((k, r) :: (disconnectList sid rest).1) rid =
            storeGet (disconnectList sid rest).1 rid by simp [storeGet, hk]] at h'
        obtain ⟨room, hg, hrel⟩ := ih h'
        exact ⟨room, by simp [storeGet, hk, hg], hrel⟩

theorem mem_disconnectList (sid : String) (store : RoomStore) :
    ∀ e ∈ (disconnectList sid store).1, ∃ r₀, (e.1, r₀) ∈ store ∧
      (e.2 = r₀ ∨ e.2 = disconnectRoom sid r₀) := by
  induction store with
  | nil => simp [disconnectList]
  | cons e₀ rest ih =>
    obtain ⟨k, r⟩ := e₀
    intro e he
    cases hf : r.players.find? (fun p => p.id == some sid) with
    | some player =>
      simp only [disconnectList, hf] at he
      rcases List.mem_cons.mp he with h1 | h1
      · subst h1
        exact ⟨r, List.mem_cons_self _ _, Or.inr rfl⟩
      · exact ⟨e.2, List.mem_cons_of_mem _ h1, Or.inl rfl⟩
    | none =>
      simp only [disconnectList, hf] at he
      rcases List.mem_cons.mp he with h1 | h1
      · subst h1
        exact ⟨r, List.mem_cons_self _ _, Or.inl rfl⟩
      · obtain ⟨r₀, hmem, hrel⟩ := ih e h1
        exact ⟨r₀, List.mem_cons_of_mem _ hmem, hrel⟩

/-! ### Lemmas about the win detector -/

theorem lineWin_iff (board : Board) (t : Nat × Nat × Nat) :
    lineWin board t = true ↔ ∃ m, cellAt board t.1 = some m ∧
      cellAt board t.2.1 = some m ∧ cellAt board t.2.2 = some m := by
  unfold lineWin
  cases hx : cellAt board t.1 with
  | none =>
    simp only [hx]
    constructor
    · intro h
      exact absurd h (by simp)
    · rintro ⟨m, hm, -, -⟩
      exact absurd hm (by simp)
  | some m₀ =>
    simp only [hx, Bool.and_eq_true, beq_iff_eq]
    constructor
    · rintro ⟨h1, h2⟩
      exact ⟨m₀, rfl, h1, h2⟩
    · rintro ⟨m, hm, h1, h2⟩
      obtain rfl : m₀ = m := Option.some.inj hm
      exact ⟨h1, h2⟩

theorem find?_append_first {α : Type} (p : α → Bool) (l₁ l₂ : List α) (t : α)
    (h₁ : ∀ x ∈ l₁, p x = false) (ht : p t = true) :
    (l₁ ++ t :: l₂).find? p = some t := by
  induction l₁ with
  | nil =>
    rw [List.nil_append, List.find?_cons_of_pos _ ht]
  | cons a l ih =>
    have ha := h₁ a (List.mem_cons_self _ _)
    rw [List.cons_append, List.find?_cons_of_neg _ (by simp [ha]),
      ih (fun x hx => h₁ x (List.mem_cons_of_mem _ hx))]

/-! ### Claim C1: move acceptance (confirmed) -/

/-- Claim C1. A move is accepted — it produces broadcasts, the first being
the `update-board` of an applied move — if and only if the room exists in
the store, some seat's connection identifier equals the caller's (the
acting seat being the first such seat), the index is in [0,8], the target
cell is empty, and the acting seat's mark equals `currentTurn`. When
rejected, the store (hence the board and all other room state) is
unchanged and nothing is emitted; when accepted, the cell receives the
acting mark and `currentTurn` becomes the mark that did not just move. -/
theorem claim1_move_accepted_iff (store : RoomStore) (sid rid : String) (index : Int) :
    ((makeMove sid rid index store).2 ≠ [] ↔
      ∃ room, storeGet store rid = some room ∧
        ∃ p, room.players.find? (fun q => q.id == some sid) = some p ∧
          0 ≤ index ∧ index ≤ 8 ∧ cellAt room.board index.toNat = none ∧
          room.currentTurn = p.symbol) ∧
    ((makeMove sid rid index store).2 = [] →
      makeMove sid rid index store = (store, [])) ∧
    (∀ room p, storeGet store rid = some room →
      room.players.find? (fun q => q.id == some sid) = some p →
      0 ≤ index → index ≤ 8 → cellAt room.board index.toNat = none →
      room.currentTurn = p.symbol →
      ∃ room', storeGet (makeMove sid rid index store).1 rid = some room' ∧
        room'.board = room.board.set index.toNat (some p.symbol) ∧
        room'.currentTurn = p.symbol.other ∧
        (room.board.length = 9 → cellAt room'.board index.toNat = some p.symbol)) := by
  cases hg : storeGet store rid with
  | none =>
    have he := makeMove_no_room sid rid index store hg
    refine ⟨?_, ?_, ?_⟩
    · rw [he]
      simp
    · intro _
      exact he
    · intro room p hg' _ _ _ _ _
      exact absurd hg' (by simp)
  | some room =>
    cases hf : room.players.find? (fun p => p.id == some sid) with
    | none =>
      have he := makeMove_no_seat sid rid index store room hg hf
      refine ⟨?_, ?_, ?_⟩
      · rw [he]
        simp only [ne_eq, not_true_eq_false, false_iff]
        rintro ⟨room₀, hg₀, p₀, hf₀, -⟩
        obtain rfl : room = room₀ := Option.some.inj hg₀
        rw [hf] at hf₀
        exact absurd hf₀ (by simp)
      · intro _
        exact he
      · intro room₀ p₀ hg₀ hf₀ _ _ _ _
        obtain rfl : room = room₀ := Option.some.inj hg₀
        rw [hf] at hf₀
        exact absurd hf₀ (by simp)
    | some p =>
      by_cases hi : index < 0 ∨ 8 < index
      · have he := makeMove_reject_index sid rid index store room p hg hf hi
        refine ⟨?_, fun _ => he, ?_⟩
        · rw [he]
          simp only [ne_eq, not_true_eq_false, false_iff]
          rintro ⟨room₀, hg₀, p₀, hf₀, h0, h8, -⟩
          rcases hi with hi | hi <;> omega
        · intro room₀ p₀ hg₀ hf₀ h0 h8 _ _
          rcases hi with hi | hi <;> omega
      · by_cases hc : (cellAt room.board index.toNat).isSome = true
        · have he := makeMove_reject_cell sid rid index store room p hg hf hi hc
          refine ⟨?_, fun _ => he, ?_⟩
          · rw [he]
            simp only [ne_eq, not_true_eq_false, false_iff]
            rintro ⟨room₀, hg₀, p₀, hf₀, h0, h8, hcell, -⟩
            obtain rfl : room = room₀ := Option.some.inj hg₀
            rw [hcell] at hc
            exact absurd hc (by simp)
          · intro room₀ p₀ hg₀ hf₀ _ _ hcell _
            obtain rfl : room = room₀ := Option.some.inj hg₀
            rw [hcell] at hc
            exact absurd hc (by simp)
        · have hc' : (cellAt room.board index.toNat).isSome = false :=
            Bool.eq_false_iff.mpr hc
          have hnone : cellAt room.board index.toNat = none := by
            cases hx : cellAt room.board index.toNat with
            | none => rfl
            | some m =>
              rw [hx] at hc'
              simp at hc'
          by_cases ht : room.currentTurn = p.symbol
          · obtain ⟨room₂, rest, heq, hboard, hturn, -, -, -⟩ :=
              makeMove_accept sid rid index store room p hg hf hi hc' ht
            refine ⟨?_, ?_, ?_⟩
            · rw [heq]
              simp only [ne_eq, reduceCtorEq, not_false_eq_true, true_iff]
              exact ⟨room, rfl, p, hf, by omega, by omega, hnone, ht⟩
            · intro hcontra
              rw [heq] at hcontra
              simp at hcontra
            · intro room₀ p₀ hg₀ hf₀ _ _ _ _
              obtain rfl : room = room₀ := Option.some.inj hg₀
              rw [hf] at hf₀
              obtain rfl : p = p₀ := Option.some.inj hf₀
              refine ⟨room₂, ?_, hboard, hturn, ?_⟩
              · rw [heq]
                simp [storeGet_storeSet]
              · intro hlen
                rw [hboard]
                have hixle : index.toNat < room.board.length := by
                  rw [hlen]
                  omega
                exact cellAt_set room.board index.toNat (some p.symbol) hixle
          · have he := makeMove_reject_turn sid rid index store room p hg hf hi hc' ht
            refine ⟨?_, fun _ => he, ?_⟩
            · rw [he]
              simp only [ne_eq, not_true_eq_false, false_iff]
              rintro ⟨room₀, hg₀, p₀, hf₀, -, -, -, hturn⟩
              obtain rfl : room = room₀ := Option.some.inj hg₀
              rw [hf] at hf₀
              obtain rfl : p = p₀ := Option.some.inj hf₀
              exact ht hturn
            · intro room₀ p₀ hg₀ hf₀ _ _ _ hturn
              obtain rfl : room = room₀ := Option.some.inj hg₀
              rw [hf] at hf₀
              obtain rfl : p = p₀ := Option.some.inj hf₀
              exact absurd hturn ht

/-- Claim C1 witness: X's opening move at cell 0 in the freshly joined room
is accepted, writes X into cell 0 and hands the turn to O. -/
theorem claim1_witness :
    ∃ room', storeGet (makeMove "s1" "R" 0 joinedStore).1 "R" = some room' ∧
      room'.board = joinedRoom.board.set (Int.toNat 0) (some seatX.symbol) ∧
      room'.currentTurn = seatX.symbol.other ∧
      (joinedRoom.board.length = 9 →
        cellAt room'.board (Int.toNat 0) = some seatX.symbol) :=
  (claim1_move_accepted_iff joinedStore "s1" "R" 0).2.2 joinedRoom seatX
    (by decide) (by decide) (by decide) (by decide) (by decide) (by decide)

/-! ### Claim C2: round-over exactly once per round (code bug) -/

/-- Claim C2, code-bug evidence: In room `"R"` of `gameStore` (round 1
throughout), X's winning move at cell 2 triggers a `round-over` broadcast
and sets X's points to 1; yet the very next move by O at cell 6 is still
accepted, triggers a second `round-over` broadcast in the same round, and
increments X's points again to 2 — contradicting "the round-over broadcast
is emitted exactly once [per round]; the winning seat's points are
incremented by exactly 1". -/
theorem claim2_round_over_twice_in_one_round :
    ((makeMove "s1" "R" 2 gameStore).2.any Emit.isRoundOver = true) ∧
    ((makeMove "s2" "R" 6 (makeMove "s1" "R" 2 gameStore).1).2.any Emit.isRoundOver = true) ∧
    ((storeGet (makeMove "s1" "R" 2 gameStore).1 "R").map
        (fun r => (r.round, r.players.map (fun p => (p.symbol, p.points)))) =
      some (1, [(Mark.X, 1), (Mark.O, 0)])) ∧
    ((storeGet (makeMove "s2" "R" 6 (makeMove "s1" "R" 2 gameStore).1).1 "R").map
        (fun r => (r.round, r.players.map (fun p => (p.symbol, p.points)))) =
      some (1, [(Mark.X, 2), (Mark.O, 0)])) := by
  decide

/-! ### Claim C3: contents of `readyAcks` (corrected) -/

/-- Claim C3 counterexample: A reachable state in which the ready set
holds `"s1"` although no seat of the room is currently connected as
`"s1"`: socket `s1` sends `ready-next-round` and then disconnects; its
entry survives in `readySet`. This refutes "the readyAcks set contains
only connection identifiers of currently connected seats". -/
theorem claim3_counterexample :
    ∃ room,
      storeGet (runActs [.create "s1" "A" "p1" randR, .join "s2" "B" "p2" "R",
        .ready "s1" "R", .disconnect "s1"]) "R" = some room ∧
      "s1" ∈ room.readySet ∧ ∀ p ∈ room.players, p.id ≠ some "s1" := by
  refine ⟨{ players := [{ id := none, playerId := "p1", nickname := "A",
                          symbol := .X, points := 0 },
                        { id := some "s2", playerId := "p2", nickname := "B",
                          symbol := .O, points := 0 }],
            board := List.replicate 9 none, currentTurn := .X, round := 1,
            readySet := ["s1"], cleanupTimer := false }, ?_, ?_, ?_⟩
  · decide
  · decide
  · decide

/-! ### Claim C6: room id uniqueness at creation (corrected) -/

/-- Claim C6 counterexample: Creation performs no collision check: with
room `"AB"` live (seat `p1`), a second creation whose generated id is
also `"AB"` replaces the existing room in the store — its seat list now
belongs to `p3` and the store still has a single entry. This refutes
"creating a room never replaces or aliases an existing room". -/
theorem claim6_counterexample :
    ((storeGet (runActs [.create "s1" "A" "p1" randAB]) "AB").map
        (fun r => r.players.map Player.playerId) = some ["p1"]) ∧
    ((storeGet (runActs [.create "s1" "A" "p1" randAB, .create "s3" "C" "p3" randAB]) "AB").map
        (fun r => r.players.map Player.playerId) = some ["p3"]) ∧
    (runActs [.create "s1" "A" "p1" randAB, .create "s3" "C" "p3" randAB]).length = 1 := by
  decide

/-! ### Claim C8: per-room seat invariants (corrected) -/

/-- Claim C8 counterexample: `join-room` never compares the joining
`playerId` against the seats already present: joining room `"R"` with the
creator's own `playerId` `"p1"` yields a reachable room whose two seats
(marks X and O) hold the same `playerId`, refuting in-room uniqueness of
`playerId`. -/
theorem claim8_counterexample :
    (storeGet (runActs [.create "s1" "A" "p1" randR, .join "s2" "B" "p1" "R"]) "R").map
        (fun r => (r.players.map Player.playerId, r.players.map Player.symbol)) =
      some (["p1", "p1"], [Mark.X, Mark.O]) := by
  decide

/-! ### Claim C4: round advance by ready-gate (confirmed) -/

/-- Claim C4. With the room present and its ready set duplicate-free:
`ready-next-round` advances the round (emits `new-round`) iff a distinct
acknowledgment was already recorded — i.e. iff, counting the caller's,
two distinct acknowledgments for the current round exist. Advancing
increments `round` by 1, resets all 9 board cells to empty, sets
`currentTurn` by round parity (odd round starts with `"X"`, even round
with `"O"`), and clears `readyAcks`; otherwise the only room change is
the caller's acknowledgment being recorded. -/
theorem claim4_round_advance_iff (store : RoomStore) (sid rid : String) (room : Room)
    (hroom : storeGet store rid = some room) (hnd : room.readySet.Nodup) :
    ((readyNextRound sid rid store).2 ≠ [] ↔ ∃ s ∈ room.readySet, s ≠ sid) ∧
    (2 ≤ (readyAdd sid room.readySet).length →
      ∃ room', storeGet (readyNextRound sid rid store).1 rid = some room' ∧
        room'.round = room.round + 1 ∧
        room'.board = List.replicate 9 none ∧
        room'.currentTurn = (if (room.round + 1) % 2 = 1 then Mark.X else Mark.O) ∧
        room'.readySet = [] ∧
        (readyNextRound sid rid store).2 =
          [.newRound (room.round + 1) (List.replicate 9 none)
            (if (room.round + 1) % 2 = 1 then Mark.X else Mark.O)]) ∧
    (¬ 2 ≤ (readyAdd sid room.readySet).length →
      ∃ room', storeGet (readyNextRound sid rid store).1 rid = some room' ∧
        room'.round = room.round ∧ room'.board = room.board ∧
        room'.currentTurn = room.currentTurn ∧
        room'.readySet = readyAdd sid room.readySet ∧
        room'.players = room.players ∧
        (readyNextRound sid rid store).2 = []) := by
  refine ⟨?_, ?_, ?_⟩
  · rw [← readyAdd_length_iff sid room.readySet hnd]
    by_cases h2 : 2 ≤ (readyAdd sid room.readySet).length
    · rw [readyNextRound_advance sid rid store room hroom h2]
      simp [h2]
    · rw [readyNextRound_wait sid rid store room hroom h2]
      simp [h2]
  · intro h2
    rw [readyNextRound_advance sid rid store room hroom h2]
    have hget : storeGet (storeSet store rid
        { room with round := room.round + 1, board := List.replicate 9 none,
                    currentTurn := if (room.round + 1) % 2 = 1 then Mark.X else Mark.O,
                    readySet := [] }) rid = some
        { room with round := room.round + 1, board := List.replicate 9 none,
                    currentTurn := if (room.round + 1) % 2 = 1 then Mark.X else Mark.O,
                    readySet := [] } := by
      simp [storeGet_storeSet]
    exact ⟨_, hget, rfl, rfl, rfl, rfl, rfl⟩
  · intro h2
    rw [readyNextRound_wait sid rid store room hroom h2]
    have hget : storeGet (storeSet store rid
        { room with readySet := readyAdd sid room.readySet }) rid = some
        { room with readySet := readyAdd sid room.readySet } := by
      simp [storeGet_storeSet]
    exact ⟨_, hget, rfl, rfl, rfl, rfl, rfl, rfl⟩

/-- Claim C4 witness: in `readyStore` (one prior acknowledgment `"a"`),
a `ready-next-round` from `"b"` advances round 1 to round 2 with an empty
board, O to start (even round), and a cleared ready set. -/
theorem claim4_witness :
    ∃ room', storeGet (readyNextRound "b" "R" readyStore).1 "R" = some room' ∧
      room'.round = readyRoom.round + 1 ∧
      room'.board = List.replicate 9 none ∧
      room'.currentTurn = (if (readyRoom.round + 1) % 2 = 1 then Mark.X else Mark.O) ∧
      room'.readySet = [] ∧
      (readyNextRound "b" "R" readyStore).2 =
        [.newRound (readyRoom.round + 1) (List.replicate 9 none)
          (if (readyRoom.round + 1) % 2 = 1 then Mark.X else Mark.O)] :=
  (claim4_round_advance_iff readyStore "b" "R" readyRoom (by decide) (by decide)).2.1
    (by decide)

/-! ### Claim C5: the win detector (confirmed) -/

/-- Claim C5. For every 9-cell board: if none of the 8 fixed triples holds
three equal non-empty marks, `checkWinner` reports no winner and no line;
and whenever the scan order (rows, then columns, then diagonals — the
order of `wins`) is split as `l₁ ++ t :: l₂` with no triple of `l₁`
matching and `t` matching with mark `m`, `checkWinner` returns exactly
that mark and that first matching triple. -/
theorem claim5_check_winner (board : Board) :
    ((∀ t ∈ wins, ¬ ∃ m, cellAt board t.1 = some m ∧ cellAt board t.2.1 = some m ∧
        cellAt board t.2.2 = some m) → checkWinner board = (none, none)) ∧
    (∀ l₁ t l₂, wins = l₁ ++ t :: l₂ →
      (∀ t' ∈ l₁, ¬ ∃ m, cellAt board t'.1 = some m ∧ cellAt board t'.2.1 = some m ∧
        cellAt board t'.2.2 = some m) →
      ∀ m, cellAt board t.1 = some m ∧ cellAt board t.2.1 = some m ∧
        cellAt board t.2.2 = some m →
      checkWinner board = (some m, some t)) := by
  constructor
  · intro h
    have hfind : wins.find? (lineWin board) = none := by
      rw [List.find?_eq_none]
      intro t htw hP
      exact h t htw ((lineWin_iff board t).mp hP)
    simp [checkWinner, hfind]
  · intro l₁ t l₂ hsplit h₁ m hm
    have hfind : wins.find? (lineWin board) = some t := by
      rw [hsplit]
      refine find?_append_first _ l₁ l₂ t ?_ ?_
      · intro x hx
        cases hb : lineWin board x
        · rfl
        · exact absurd ((lineWin_iff board x).mp hb) (h₁ x hx)
      · exact (lineWin_iff board t).mpr ⟨m, hm.1, hm.2.1, hm.2.2⟩
    simp [checkWinner, hfind, hm.1]

/-- Claim C5 witness: the board with X on the whole top row makes
`checkWinner` report X with line (0,1,2), the first triple in scan order. -/
theorem claim5_witness :
    checkWinner [some Mark.X, some Mark.X, some Mark.X,
      none, none, none, none, none, none] = (some Mark.X, some (0, 1, 2)) :=
  (claim5_check_winner _).2 [] (0, 1, 2)
    [(3, 4, 5), (6, 7, 8), (0, 3, 6), (1, 4, 7), (2, 5, 8), (0, 4, 8), (2, 4, 6)]
    rfl (by simp) Mark.X ⟨rfl, rfl, rfl⟩

/-! ### Claim C7: rejoin semantics (confirmed) -/

/-- Claim C7. `rejoin-room` with an unknown room fails with "Room not
found" and changes nothing; with an unmatched `playerId` it fails with
"Seat not found" and changes nothing; with a matching seat it succeeds,
rewrites only that (first matching) seat's connection identifier — every
seat's `playerId`, `nickname`, mark and points are unchanged, no seat is
appended — leaves the room's board, round, turn and ready set unchanged,
clears any pending cleanup timer, and leaves every other room untouched. -/
theorem claim7_rejoin_restores_seat (store : RoomStore) (sid rid pid : String) :
    (storeGet store rid = none →
      rejoinRoom sid rid pid store = (store, .err "Room not found", [])) ∧
    (∀ room, storeGet store rid = some room →
      room.players.find? (fun q => q.playerId == pid) = none →
      rejoinRoom sid rid pid store = (store, .err "Seat not found", [])) ∧
    (∀ room p, storeGet store rid = some room →
      room.players.find? (fun q => q.playerId == pid) = some p →
      ∃ room', storeGet (rejoinRoom sid rid pid store).1 rid = some room' ∧
        (rejoinRoom sid rid pid store).2.1 = .okSnapshot ∧
        room'.players = updateFirst (fun q => q.playerId == pid)
          (fun q => { q with id := some sid }) room.players ∧
        room'.players.map (fun q => (q.playerId, q.nickname, q.symbol, q.points)) =
          room.players.map (fun q => (q.playerId, q.nickname, q.symbol, q.points)) ∧
        room'.players.length = room.players.length ∧
        room'.board = room.board ∧ room'.round = room.round ∧
        room'.currentTurn = room.currentTurn ∧ room'.readySet = room.readySet ∧
        room'.cleanupTimer = false ∧
        ∀ rid₂, rid₂ ≠ rid →
          storeGet (rejoinRoom sid rid pid store).1 rid₂ = storeGet store rid₂) := by
  refine ⟨?_, ?_, ?_⟩
  · intro h
    exact rejoinRoom_no_room sid rid pid store h
  · intro room h hf
    exact rejoinRoom_no_seat sid rid pid store room h hf
  · intro room p h hf
    rw [rejoinRoom_success sid rid pid store room p h hf]
    have hget : storeGet (storeSet store rid
        { room with players := updateFirst (fun q => q.playerId == pid)
                      (fun q => { q with id := some sid }) room.players,
                    cleanupTimer := false }) rid = some
        { room with players := updateFirst (fun q => q.playerId == pid)
                      (fun q => { q with id := some sid }) room.players,
                    cleanupTimer := false } := by
      simp [storeGet_storeSet]
    refine ⟨_, hget, rfl, rfl, ?_, ?_, rfl, rfl, rfl, rfl, rfl, ?_⟩
    · exact updateFirst_map (fun q => q.playerId == pid)
        (fun q => { q with id := some sid })
        (fun q => (q.playerId, q.nickname, q.symbol, q.points)) (fun x => rfl)
        room.players
    · exact updateFirst_length _ _ _
    · intro rid₂ hne
      rw [storeGet_storeSet, if_neg (fun h => hne h.symm)]

/-- Claim C7 witness: `p1` rejoining room `"R"` of `droppedStore` as socket
`"s9"` succeeds, keeps mark/points of every seat, cancels the pending
cleanup timer and leaves the seat count at 2. -/
theorem claim7_witness :
    ∃ room', storeGet (rejoinRoom "s9" "R" "p1" droppedStore).1 "R" = some room' ∧
      (rejoinRoom "s9" "R" "p1" droppedStore).2.1 = .okSnapshot ∧
      room'.players = updateFirst (fun q => q.playerId == "p1")
        (fun q => { q with id := some "s9" }) droppedRoom.players ∧
      room'.players.map (fun q => (q.playerId, q.nickname, q.symbol, q.points)) =
        droppedRoom.players.map (fun q => (q.playerId, q.nickname, q.symbol, q.points)) ∧
      room'.players.length = droppedRoom.players.length ∧
      room'.board = droppedRoom.board ∧ room'.round = droppedRoom.round ∧
      room'.currentTurn = droppedRoom.currentTurn ∧
      room'.readySet = droppedRoom.readySet ∧
      room'.cleanupTimer = false ∧
      ∀ rid₂, rid₂ ≠ "R" →
        storeGet (rejoinRoom "s9" "R" "p1" droppedStore).1 rid₂ =
          storeGet droppedStore rid₂ :=
  (claim7_rejoin_restores_seat droppedStore "s9" "R" "p1").2.2 droppedRoom
    { id := none, playerId := "p1", nickname := "A", symbol := .X, points := 3 }
    (by decide) (by decide)

/-! ### Per-event transition lemmas at a fixed key -/

theorem createRoom_at (sid n p : String) (rand : List Char) (store : RoomStore)
    (rid : String) (room room' : Room)
    (h : storeGet store rid = some room)
    (h' : storeGet (createRoom sid n p rand store).1 rid = some room') :
    room' = room ∨ room' = initialRoom sid p n := by
  by_cases hv : n = "" ∨ p = ""
  · rw [createRoom_invalid _ _ _ _ _ hv] at h'
    rw [h] at h'
    exact Or.inl (Option.some.inj h').symm
  · rw [createRoom_valid _ _ _ _ _ (not_or.mp hv).1 (not_or.mp hv).2] at h'
    rw [storeGet_storeSet] at h'
    by_cases hg : generateRoomId rand = rid
    · rw [if_pos hg] at h'
      exact Or.inr (Option.some.inj h').symm
    · rw [if_neg hg] at h'
      rw [h] at h'
      exact Or.inl (Option.some.inj h').symm

theorem joinRoom_at (sid n p rid₀ : String) (store : RoomStore)
    (rid : String) (room room' : Room)
    (h : storeGet store rid = some room)
    (h' : storeGet (joinRoom sid n p rid₀ store).1 rid = some room') :
    room'.round = room.round ∧ room'.cleanupTimer = room.cleanupTimer := by
  cases hg0 : storeGet store rid₀ with
  | none =>
    rw [joinRoom_no_room _ _ _ _ _ hg0] at h'
    rw [h] at h'
    obtain rfl : room' = room := (Option.some.inj h').symm
    exact ⟨rfl, rfl⟩
  | some room₀ =>
    by_cases hv : n = "" ∨ p = ""
    · rw [joinRoom_invalid _ _ _ _ _ _ hg0 hv] at h'
      rw [h] at h'
      obtain rfl : room' = room := (Option.some.inj h').symm
      exact ⟨rfl, rfl⟩
    · by_cases hl : 2 ≤ room₀.players.length
      · rw [joinRoom_full _ _ _ _ _ _ hg0 hv hl] at h'
        rw [h] at h'
        obtain rfl : room' = room := (Option.some.inj h').symm
        exact ⟨rfl, rfl⟩
      · rw [joinRoom_success _ _ _ _ _ _ hg0 hv hl] at h'
        rw [storeGet_storeSet] at h'
        by_cases hr : rid₀ = rid
        · rw [if_pos hr] at h'
          subst hr
          rw [h] at hg0
          obtain rfl : room = room₀ := Option.some.inj hg0
          obtain rfl := (Option.some.inj h').symm
          exact ⟨rfl, rfl⟩
        · rw [if_neg hr] at h'
          rw [h] at h'
          obtain rfl : room' = room := (Option.some.inj h').symm
          exact ⟨rfl, rfl⟩

theorem rejoinRoom_at (sid rid₀ pid : String) (store : RoomStore)
    (rid : String) (room room' : Room)
    (h : storeGet store rid = some room)
    (h' : storeGet (rejoinRoom sid rid₀ pid store).1 rid = some room') :
    room'.round = room.round ∧
      (room'.cleanupTimer = room.cleanupTimer ∨ room'.cleanupTimer = false) := by
  cases hg0 : storeGet store rid₀ with
  | none =>
    rw [rejoinRoom_no_room _ _ _ _ hg0] at h'
    rw [h] at h'
    obtain rfl : room' = room := (Option.some.inj h').symm
    exact ⟨rfl, Or.inl rfl⟩
  | some room₀ =>
    cases hf : room₀.players.find? (fun q => q.playerId == pid) with
    | none =>
      rw [rejoinRoom_no_seat _ _ _ _ _ hg0 hf] at h'
      rw [h] at h'
      obtain rfl : room' = room := (Option.some.inj h').symm
      exact ⟨rfl, Or.inl rfl⟩
    | some q =>
      rw [rejoinRoom_success _ _ _ _ _ _ hg0 hf] at h'
      rw [storeGet_storeSet] at h'
      by_cases hr : rid₀ = rid
      · rw [if_pos hr] at h'
        subst hr
        rw [h] at hg0
        obtain rfl : room = room₀ := Option.some.inj hg0
        obtain rfl := (Option.some.inj h').symm
        exact ⟨rfl, Or.inr rfl⟩
      · rw [if_neg hr] at h'
        rw [h] at h'
        obtain rfl : room' = room := (Option.some.inj h').symm
        exact ⟨rfl, Or.inl rfl⟩

theorem makeMove_at (sid rid₀ : String) (i : Int) (store : RoomStore)
    (rid : String) (room room' : Room)
    (h : storeGet store rid = some room)
    (h' : storeGet (makeMove sid rid₀ i store).1 rid = some room') :
    room'.round = room.round ∧ room'.cleanupTimer = room.cleanupTimer := by
  cases hg0 : storeGet store rid₀ with
  | none =>
    rw [makeMove_no_room _ _ _ _ hg0] at h'
    rw [h] at h'
    obtain rfl : room' = room := (Option.some.inj h').symm
    exact ⟨rfl, rfl⟩
  | some room₀ =>
    cases hf : room₀.players.find? (fun q => q.id == some sid) with
    | none =>
      rw [makeMove_no_seat _ _ _ _ _ hg0 hf] at h'
      rw [h] at h'
      obtain rfl : room' = room := (Option.some.inj h').symm
      exact ⟨rfl, rfl⟩
    | some q =>
      by_cases hi : i < 0 ∨ 8 < i
      · rw [makeMove_reject_index _ _ _ _ _ _ hg0 hf hi] at h'
        rw [h] at h'
        obtain rfl : room' = room := (Option.some.inj h').symm
        exact ⟨rfl, rfl⟩
      · by_cases hc : (cellAt room₀.board i.toNat).isSome = true
        · rw [makeMove_reject_cell _ _ _ _ _ _ hg0 hf hi hc] at h'
          rw [h] at h'
          obtain rfl : room' = room := (Option.some.inj h').symm
          exact ⟨rfl, rfl⟩
        · have hc' : (cellAt room₀.board i.toNat).isSome = false :=
            Bool.eq_false_iff.mpr hc
          by_cases ht : room₀.currentTurn = q.symbol
          · obtain ⟨room₂, rest, heq, -, -, hround, htimer, -⟩ :=
              makeMove_accept sid rid₀ i store room₀ q hg0 hf hi hc' ht
            rw [heq] at h'
            simp only [storeGet_storeSet] at h'
            by_cases hr : rid₀ = rid
            · rw [if_pos hr] at h'
              subst hr
              rw [h] at hg0
              obtain rfl : room = room₀ := Option.some.inj hg0
              obtain rfl : room' = room₂ := (Option.some.inj h').symm
              exact ⟨hround, htimer⟩
            · rw [if_neg hr] at h'
              rw [h] at h'
              obtain rfl : room' = room := (Option.some.inj h').symm
              exact ⟨rfl, rfl⟩
          · rw [makeMove_reject_turn _ _ _ _ _ _ hg0 hf hi hc' ht] at h'
            rw [h] at h'
            obtain rfl : room' = room := (Option.some.inj h').symm
            exact ⟨rfl, rfl⟩

theorem readyNextRound_at (sid rid₀ : String) (store : RoomStore)
    (rid : String) (room room' : Room)
    (h : storeGet store rid = some room)
    (h' : storeGet (readyNextRound sid rid₀ store).1 rid = some room') :
    room'.cleanupTimer = room.cleanupTimer ∧
      (room'.round = room.round ∨
        (rid₀ = rid ∧ room'.round = room.round + 1 ∧
          2 ≤ (readyAdd sid room.readySet).length ∧ room'.readySet = [])) := by
  cases hg0 : storeGet store rid₀ with
  | none =>
    rw [readyNextRound_no_room _ _ _ hg0] at h'
    rw [h] at h'
    obtain rfl : room' = room := (Option.some.inj h').symm
    exact ⟨rfl, Or.inl rfl⟩
  | some room₀ =>
    by_cases h2 : 2 ≤ (readyAdd sid room₀.readySet).length
    · rw [readyNextRound_advance _ _ _ _ hg0 h2] at h'
      rw [storeGet_storeSet] at h'
      by_cases hr : rid₀ = rid
      · rw [if_pos hr] at h'
        subst hr
        rw [h] at hg0
        obtain rfl : room = room₀ := Option.some.inj hg0
        obtain rfl := (Option.some.inj h').symm
        exact ⟨rfl, Or.inr ⟨rfl, rfl, h2, rfl⟩⟩
      · rw [if_neg hr] at h'
        rw [h] at h'
        obtain rfl : room' = room := (Option.some.inj h').symm
        exact ⟨rfl, Or.inl rfl⟩
    · rw [readyNextRound_wait _ _ _ _ hg0 h2] at h'
      rw [storeGet_storeSet] at h'
      by_cases hr : rid₀ = rid
      · rw [if_pos hr] at h'
        subst hr
        rw [h] at hg0
        obtain rfl : room = room₀ := Option.some.inj hg0
        obtain rfl := (Option.some.inj h').symm
        exact ⟨rfl, Or.inl rfl⟩
      · rw [if_neg hr] at h'
        rw [h] at h'
        obtain rfl : room' = room := (Option.some.inj h').symm
        exact ⟨rfl, Or.inl rfl⟩

theorem resetScores_at (rid₀ : String) (store : RoomStore)
    (rid : String) (room room' : Room)
    (h : storeGet store rid = some room)
    (h' : storeGet (resetScores rid₀ store).1 rid = some room') :
    room'.round = room.round ∧ room'.cleanupTimer = room.cleanupTimer := by
  cases hg0 : storeGet store rid₀ with
  | none =>
    rw [resetScores_no_room _ _ hg0] at h'
    rw [h] at h'
    obtain rfl : room' = room := (Option.some.inj h').symm
    exact ⟨rfl, rfl⟩
  | some room₀ =>
    rw [resetScores_some _ _ _ hg0] at h'
    rw [storeGet_storeSet] at h'
    by_cases hr : rid₀ = rid
    · rw [if_pos hr] at h'
      subst hr
      rw [h] at hg0
      obtain rfl : room = room₀ := Option.some.inj hg0
      obtain rfl := (Option.some.inj h').symm
      exact ⟨rfl, rfl⟩
    · rw [if_neg hr] at h'
      rw [h] at h'
      obtain rfl : room' = room := (Option.some.inj h').symm
      exact ⟨rfl, rfl⟩

theorem fire_at (rid₀ : String) (store : RoomStore)
    (rid : String) (room room' : Room)
    (hkeys : (store.map Prod.fst).Nodup)
    (h : storeGet store rid = some room)
    (h' : storeGet (applyAct (.fire rid₀) store) rid = some room') :
    room'.round = room.round ∧
      (room'.cleanupTimer = room.cleanupTimer ∨ room'.cleanupTimer = false) := by
  cases hg0 : storeGet store rid₀ with
  | none =>
    rw [fire_no_room _ _ hg0] at h'
    rw [h] at h'
    obtain rfl : room' = room := (Option.some.inj h').symm
    exact ⟨rfl, Or.inl rfl⟩
  | some room₀ =>
    cases ht : room₀.cleanupTimer with
    | false =>
      rw [fire_not_armed _ _ _ hg0 ht] at h'
      rw [h] at h'
      obtain rfl : room' = room := (Option.some.inj h').symm
      exact ⟨rfl, Or.inl rfl⟩
    | true =>
      by_cases hc : activePlayersCount room₀ = 0
      · rw [fire_delete _ _ _ hg0 ht hc] at h'
        by_cases hr : rid₀ = rid
        · subst hr
          rw [storeGet_storeDelete_self _ _ hkeys] at h'
          exact absurd h' (by simp)
        · rw [storeGet_storeDelete_ne _ _ _ hr] at h'
          rw [h] at h'
          obtain rfl : room' = room := (Option.some.inj h').symm
          exact ⟨rfl, Or.inl rfl⟩
      · rw [fire_clear _ _ _ hg0 ht hc] at h'
        rw [storeGet_storeSet] at h'
        by_cases hr : rid₀ = rid
        · rw [if_pos hr] at h'
          subst hr
          rw [h] at hg0
          obtain rfl : room = room₀ := Option.some.inj hg0
          obtain rfl := (Option.some.inj h').symm
          exact ⟨rfl, Or.inr rfl⟩
        · rw [if_neg hr] at h'
          rw [h] at h'
          obtain rfl : room' = room := (Option.some.inj h').symm
          exact ⟨rfl, Or.inl rfl⟩

/-! ### Claim C3: readyAcks contents and the round-advance trigger (corrected) -/

/-- Claim C3 as amended. `readyAcks` may retain identifiers of connections
that are not currently-connected seats of the room — the handler records
the caller's socket id without any seat-membership check and disconnect
does not purge it (see the counterexample). What does hold is the second
half of the claim: reaching cardinality 2 is the sole trigger for round
advance — for any event applied to a store with duplicate-free keys, if
the round of the room at `rid` increases at all, the event was a
`ready-next-round` for `rid` whose ready set reached size 2 after
recording the caller, the round advanced by exactly 1, and the set was
cleared. -/
theorem claim3_amended_sole_trigger (a : Act) (store : RoomStore) (rid : String)
    (room room' : Room)
    (hkeys : (store.map Prod.fst).Nodup)
    (h : storeGet store rid = some room)
    (h' : storeGet (applyAct a store) rid = some room')
    (h1 : 1 ≤ room.round)
    (hlt : room.round < room'.round) :
    ∃ sid, a = Act.ready sid rid ∧ room'.round = room.round + 1 ∧
      2 ≤ (readyAdd sid room.readySet).length ∧ room'.readySet = [] := by
  cases a with
  | create sid n p rand =>
    rcases createRoom_at sid n p rand store rid room room' h h' with hrel | hrel
    · rw [hrel] at hlt
      omega
    · rw [hrel] at hlt
      simp only [initialRoom] at hlt
      omega
  | join sid n p rid₀ =>
    obtain ⟨hr, -⟩ := joinRoom_at sid n p rid₀ store rid room room' h h'
    omega
  | rejoin sid rid₀ pid =>
    obtain ⟨hr, -⟩ := rejoinRoom_at sid rid₀ pid store rid room room' h h'
    omega
  | move sid rid₀ i =>
    obtain ⟨hr, -⟩ := makeMove_at sid rid₀ i store rid room room' h h'
    omega
  | ready sid rid₀ =>
    obtain ⟨-, hrel⟩ := readyNextRound_at sid rid₀ store rid room room' h h'
    rcases hrel with hr | ⟨hrid, hr, h2, hclr⟩
    · omega
    · exact ⟨sid, by rw [hrid], hr, h2, hclr⟩
  | reset rid₀ =>
    obtain ⟨hr, -⟩ := resetScores_at rid₀ store rid room room' h h'
    omega
  | disconnect sid =>
    obtain ⟨room₀, hg, hrel⟩ := storeGet_disconnectList sid store rid room' h'
    rw [h] at hg
    obtain rfl : room = room₀ := Option.some.inj hg
    rcases hrel with hrel | ⟨p, hp, hrel⟩
    · rw [hrel] at hlt
      omega
    · rw [hrel, disconnectRoom_round] at hlt
      omega
  | fire rid₀ =>
    obtain ⟨hr, -⟩ := fire_at rid₀ store rid room room' hkeys h h'
    omega

/-- Claim C3 amended-claim witness: in `readyStore` (prior acknowledgment
`"a"`, round 1), the ready event from `"b"` is recognized by the theorem
as the round-advance trigger. -/
theorem claim3_witness :
    ∃ sid, Act.ready "b" "R" = Act.ready sid "R" ∧
      advancedRoom.round = readyRoom.round + 1 ∧
      2 ≤ (readyAdd sid readyRoom.readySet).length ∧ advancedRoom.readySet = [] :=
  claim3_amended_sole_trigger (.ready "b" "R") readyStore "R" readyRoom advancedRoom
    (by decide) (by decide) (by decide) (by decide) (by decide)

/-! ### Claim C9: idle cleanup (confirmed) -/

/-- Claim C9. (i) Cleanup is armed only when a room's active-connection
count transitions to zero: for any event on a store with duplicate-free
keys, if the room's timer flips from unarmed to armed, the event was a
disconnect, the room's count is now 0 and was at least 1 before.
(ii) Re-arming while a timer is pending is a no-op (`scheduleRoomCleanup`
returns the store unchanged), so at most one pending action exists per
room. (iii) At expiry the room is deleted iff its count is still zero
(otherwise only the timer is cleared). (iv) A successful rejoin clears the
pending timer, after which the (cancelled) expiry is a no-op — the room is
never deleted by it. -/
theorem claim9_cleanup_lifecycle (rid : String) :
    (∀ a store room room', (store.map Prod.fst).Nodup →
      storeGet store rid = some room →
      storeGet (applyAct a store) rid = some room' →
      room.cleanupTimer = false → room'.cleanupTimer = true →
      ∃ sid, a = Act.disconnect sid ∧ activePlayersCount room' = 0 ∧
        1 ≤ activePlayersCount room) ∧
    (∀ store room, storeGet store rid = some room → room.cleanupTimer = true →
      scheduleRoomCleanup rid store = store) ∧
    (∀ store room, storeGet store rid = some room → room.cleanupTimer = true →
      (store.map Prod.fst).Nodup →
      (activePlayersCount room = 0 →
        storeGet (applyAct (.fire rid) store) rid = none) ∧
      (activePlayersCount room ≠ 0 →
        storeGet (applyAct (.fire rid) store) rid =
          some { room with cleanupTimer := false })) ∧
    (∀ store room p sid pid, storeGet store rid = some room →
      room.players.find? (fun q => q.playerId == pid) = some p →
      ∃ room', storeGet (rejoinRoom sid rid pid store).1 rid = some room' ∧
        room'.cleanupTimer = false ∧
        applyAct (.fire rid) (rejoinRoom sid rid pid store).1 =
          (rejoinRoom sid rid pid store).1) := by
  refine ⟨?_, ?_, ?_, ?_⟩
  · intro a store room room' hkeys h h' hTf hTt
    cases a with
    | create sid n p rand =>
      rcases createRoom_at sid n p rand store rid room room' h h' with hrel | hrel
      · rw [hrel, hTf] at hTt
        exact absurd hTt (by simp)
      · rw [hrel] at hTt
        exact absurd hTt (by simp [initialRoom])
    | join sid n p rid₀ =>
      obtain ⟨-, ht⟩ := joinRoom_at sid n p rid₀ store rid room room' h h'
      rw [ht, hTf] at hTt
      exact absurd hTt (by simp)
    | rejoin sid rid₀ pid =>
      obtain ⟨-, ht⟩ := rejoinRoom_at sid rid₀ pid store rid room room' h h'
      rcases ht with ht | ht
      · rw [ht, hTf] at hTt
        exact absurd hTt (by simp)
      · rw [ht] at hTt
        exact absurd hTt (by simp)
    | move sid rid₀ i =>
      obtain ⟨-, ht⟩ := makeMove_at sid rid₀ i store rid room room' h h'
      rw [ht, hTf] at hTt
      exact absurd hTt (by simp)
    | ready sid rid₀ =>
      obtain ⟨ht, -⟩ := readyNextRound_at sid rid₀ store rid room room' h h'
      rw [ht, hTf] at hTt
      exact absurd hTt (by simp)
    | reset rid₀ =>
      obtain ⟨-, ht⟩ := resetScores_at rid₀ store rid room room' h h'
      rw [ht, hTf] at hTt
      exact absurd hTt (by simp)
    | disconnect sid =>
      obtain ⟨room₀, hg, hrel⟩ := storeGet_disconnectList sid store rid room' h'
      rw [h] at hg
      obtain rfl : room = room₀ := Option.some.inj hg
      rcases hrel with hrel | ⟨p, hp, hrel⟩
      · rw [hrel, hTf] at hTt
        exact absurd hTt (by simp)
      · subst hrel
        exact ⟨sid, rfl, disconnectRoom_timer_flip sid room hTf hTt,
          activePlayersCount_pos sid room p hp⟩
    | fire rid₀ =>
      obtain ⟨-, ht⟩ := fire_at rid₀ store rid room room' hkeys h h'
      rcases ht with ht | ht
      · rw [ht, hTf] at hTt
        exact absurd hTt (by simp)
      · rw [ht] at hTt
        exact absurd hTt (by simp)
  · intro store room h ht
    simp [scheduleRoomCleanup, h, ht]
  · intro store room h ht hkeys
    constructor
    · intro hc
      rw [fire_delete _ _ _ h ht hc]
      exact storeGet_storeDelete_self _ _ hkeys
    · intro hc
      rw [fire_clear _ _ _ h ht hc]
      rw [storeGet_storeSet, if_pos rfl]
  · intro store room p sid pid h hf
    have heq := rejoinRoom_success sid rid pid store room p h hf
    rw [heq]
    have hget : storeGet (storeSet store rid
        { room with players := updateFirst (fun q => q.playerId == pid)
                      (fun q => { q with id := some sid }) room.players,
                    cleanupTimer := false }) rid = some
        { room with players := updateFirst (fun q => q.playerId == pid)
                      (fun q => { q with id := some sid }) room.players,
                    cleanupTimer := false } := by
      rw [storeGet_storeSet, if_pos rfl]
    exact ⟨_, hget, rfl, fire_not_armed _ _ _ hget rfl⟩

/-- Claim C9 witness: in `droppedStore` (both seats offline, timer armed),
the expiry deletes the room from the store. -/
theorem claim9_witness :
    storeGet (applyAct (.fire "R") droppedStore) "R" = none :=
  ((claim9_cleanup_lifecycle "R").2.2.1 droppedStore droppedRoom
    (by decide) (by decide) (by decide)).1 (by decide)

/-! ### Claim C10: disconnect handles only the first matching room (confirmed) -/

/-- Claim C10. On a disconnect notification the handler scans the store in
insertion order and stops (`break`) at the first room holding a seat with
the disconnected connection id: only that room changes — its first
matching seat is marked offline (and cleanup possibly armed) — and exactly
one `player-left` is broadcast, for that seat; every room before it and
every room after it, including rooms in which the same connection also
occupies a seat, keeps its state unchanged, those seats remaining marked
connected. If no room matches, nothing changes and nothing is emitted. -/
theorem claim10_disconnect_first_match_only (sid : String) :
    (∀ store, (∀ e ∈ store, e.2.players.find? (fun p => p.id == some sid) = none) →
      disconnectList sid store = (store, [])) ∧
    (∀ pre post rid room player,
      (∀ e ∈ pre, e.2.players.find? (fun p => p.id == some sid) = none) →
      room.players.find? (fun p => p.id == some sid) = some player →
      disconnectList sid (pre ++ (rid, room) :: post) =
        (pre ++ (rid, disconnectRoom sid room) :: post,
         [.playerLeft player.playerId player.nickname player.symbol]) ∧
      (disconnectRoom sid room).players =
        updateFirst (fun p => p.id == some sid) (fun p => { p with id := none })
          room.players) := by
  refine ⟨disconnectList_no_match sid, ?_⟩
  intro pre post rid room player hpre hp
  exact ⟨disconnectList_split sid pre post rid room player hpre hp,
    disconnectRoom_players sid room⟩

/-- Claim C10 witness: socket `s1` holds seats in both `"R1"` and `"R2"`;
its disconnect touches only `"R1"` (first in insertion order), emits one
`player-left` for seat `p1`, and leaves `"R2"` byte-for-byte unchanged. -/
theorem claim10_witness :
    disconnectList "s1" ([] ++ ("R1", joinedRoom) :: [("R2", joinedRoom)]) =
      ([] ++ ("R1", disconnectRoom "s1" joinedRoom) :: [("R2", joinedRoom)],
       [.playerLeft seatX.playerId seatX.nickname seatX.symbol]) ∧
    (disconnectRoom "s1" joinedRoom).players =
      updateFirst (fun p => p.id == some "s1") (fun p => { p with id := none })
        joinedRoom.players :=
  (claim10_disconnect_first_match_only "s1").2 [] [("R2", joinedRoom)] "R1"
    joinedRoom seatX (by simp) (by decide)

/-! ### The seat-marks invariant (for claim C8) -/

theorem marksInv_applyAct (a : Act) (store : RoomStore)
    (h : ∀ e ∈ store, e.2.players.map Player.symbol = [Mark.X] ∨
      e.2.players.map Player.symbol = [Mark.X, Mark.O]) :
    ∀ e ∈ applyAct a store, e.2.players.map Player.symbol = [Mark.X] ∨
      e.2.players.map Player.symbol = [Mark.X, Mark.O] := by
  cases a with
  | create sid n p rand =>
    intro e he
    simp only [applyAct] at he
    by_cases hv : n = "" ∨ p = ""
    · rw [createRoom_invalid sid n p rand store hv] at he
      exact h e he
    · rw [createRoom_valid sid n p rand store (not_or.mp hv).1 (not_or.mp hv).2] at he
      rcases mem_storeSet _ _ _ e he with h1 | h1
      · rw [h1]
        exact Or.inl rfl
      · exact h e h1
  | join sid n p rid₀ =>
    intro e he
    simp only [applyAct] at he
    cases hg0 : storeGet store rid₀ with
    | none =>
      rw [joinRoom_no_room _ _ _ _ _ hg0] at he
      exact h e he
    | some room₀ =>
      by_cases hv : n = "" ∨ p = ""
      · rw [joinRoom_invalid _ _ _ _ _ _ hg0 hv] at he
        exact h e he
      · by_cases hl : 2 ≤ room₀.players.length
        · rw [joinRoom_full _ _ _ _ _ _ hg0 hv hl] at he
          exact h e he
        · rw [joinRoom_success _ _ _ _ _ _ hg0 hv hl] at he
          rcases mem_storeSet _ _ _ e he with h1 | h1
          · rw [h1]
            rcases h (rid₀, room₀) (storeGet_mem store rid₀ room₀ hg0) with hx | hx
            · right
              show (room₀.players ++ _).map Player.symbol = _
              rw [List.map_append, hx]
              rfl
            · have hlen : room₀.players.length = 2 := by
                have := congrArg List.length hx
                simpa using this
              omega
          · exact h e h1
  | rejoin sid rid₀ pid =>
    intro e he
    simp only [applyAct] at he
    cases hg0 : storeGet store rid₀ with
    | none =>
      rw [rejoinRoom_no_room _ _ _ _ hg0] at he
      exact h e he
    | some room₀ =>
      cases hf : room₀.players.find? (fun q => q.playerId == pid) with
      | none =>
        rw [rejoinRoom_no_seat _ _ _ _ _ hg0 hf] at he
        exact h e he
      | some q =>
        rw [rejoinRoom_success _ _ _ _ _ _ hg0 hf] at he
        rcases mem_storeSet _ _ _ e he with h1 | h1
        · rw [h1]
          have hmap : (updateFirst (fun q => q.playerId == pid)
              (fun q => { q with id := some sid }) room₀.players).map Player.symbol =
              room₀.players.map Player.symbol :=
            updateFirst_map (fun q => q.playerId == pid)
              (fun q => { q with id := some sid }) Player.symbol (fun x => rfl)
              room₀.players
          show (updateFirst (fun q => q.playerId == pid)
              (fun q => { q with id := some sid }) room₀.players).map Player.symbol =
              [Mark.X] ∨ _
          rw [hmap]
          exact h (rid₀, room₀) (storeGet_mem store rid₀ room₀ hg0)
        · exact h e h1
  | move sid rid₀ i =>
    intro e he
    simp only [applyAct] at he
    cases hg0 : storeGet store rid₀ with
    | none =>
      rw [makeMove_no_room _ _ _ _ hg0] at he
      exact h e he
    | some room₀ =>
      cases hf : room₀.players.find? (fun q => q.id == some sid) with
      | none =>
        rw [makeMove_no_seat _ _ _ _ _ hg0 hf] at he
        exact h e he
      | some q =>
        by_cases hi : i < 0 ∨ 8 < i
        · rw [makeMove_reject_index _ _ _ _ _ _ hg0 hf hi] at he
          exact h e he
        · by_cases hc : (cellAt room₀.board i.toNat).isSome = true
          · rw [makeMove_reject_cell _ _ _ _ _ _ hg0 hf hi hc] at he
            exact h e he
          · have hc' : (cellAt room₀.board i.toNat).isSome = false :=
              Bool.eq_false_iff.mpr hc
            by_cases ht : room₀.currentTurn = q.symbol
            · obtain ⟨room₂, rest, heq, -, -, -, -, hmap⟩ :=
                makeMove_accept sid rid₀ i store room₀ q hg0 hf hi hc' ht
              rw [heq] at he
              rcases mem_storeSet _ _ _ e he with h1 | h1
              · rw [h1]
                have hsym : room₂.players.map Player.symbol =
                    room₀.players.map Player.symbol := by
                  have h4 := congrArg (List.map
                    (fun t : Option String × String × String × Mark => t.2.2.2)) hmap
                  rw [List.map_map, List.map_map] at h4
                  exact h4
                show room₂.players.map Player.symbol = [Mark.X] ∨ _
                rw [hsym]
                exact h (rid₀, room₀) (storeGet_mem store rid₀ room₀ hg0)
              · exact h e h1
            · rw [makeMove_reject_turn _ _ _ _ _ _ hg0 hf hi hc' ht] at he
              exact h e he
  | ready sid rid₀ =>
    intro e he
    simp only [applyAct] at he
    cases hg0 : storeGet store rid₀ with
    | none =>
      rw [readyNextRound_no_room _ _ _ hg0] at he
      exact h e he
    | some room₀ =>
      by_cases h2 : 2 ≤ (readyAdd sid room₀.readySet).length
      · rw [readyNextRound_advance _ _ _ _ hg0 h2] at he
        rcases mem_storeSet _ _ _ e he with h1 | h1
        · rw [h1]
          exact h (rid₀, room₀) (storeGet_mem store rid₀ room₀ hg0)
        · exact h e h1
      · rw [readyNextRound_wait _ _ _ _ hg0 h2] at he
        rcases mem_storeSet _ _ _ e he with h1 | h1
        · rw [h1]
          exact h (rid₀, room₀) (storeGet_mem store rid₀ room₀ hg0)
        · exact h e h1
  | reset rid₀ =>
    intro e he
    simp only [applyAct] at he
    cases hg0 : storeGet store rid₀ with
    | none =>
      rw [resetScores_no_room _ _ hg0] at he
      exact h e he
    | some room₀ =>
      rw [resetScores_some _ _ _ hg0] at he
      rcases mem_storeSet _ _ _ e he with h1 | h1
      · rw [h1]
        have hsym : (room₀.players.map (fun p => { p with points := 0 })).map
            Player.symbol = room₀.players.map Player.symbol := by
          rw [List.map_map]
          rfl
        show (room₀.players.map (fun p => { p with points := 0 })).map
            Player.symbol = [Mark.X] ∨ _
        rw [hsym]
        exact h (rid₀, room₀) (storeGet_mem store rid₀ room₀ hg0)
      · exact h e h1
  | disconnect sid =>
    intro e he
    simp only [applyAct] at he
    obtain ⟨r₀, hmem, hrel⟩ := mem_disconnectList sid store e he
    have hbase := h (e.1, r₀) hmem
    rcases hrel with h1 | h1
    · rw [h1]
      exact hbase
    · rw [h1]
      have hsym : (disconnectRoom sid r₀).players.map Player.symbol =
          r₀.players.map Player.symbol := by
        rw [disconnectRoom_players]
        exact updateFirst_map (fun p => p.id == some sid)
          (fun p => { p with id := none }) Player.symbol (fun x => rfl) r₀.players
      rw [hsym]
      exact hbase
  | fire rid₀ =>
    intro e he
    cases hg0 : storeGet store rid₀ with
    | none =>
      rw [fire_no_room _ _ hg0] at he
      exact h e he
    | some room₀ =>
      cases ht : room₀.cleanupTimer with
      | false =>
        rw [fire_not_armed _ _ _ hg0 ht] at he
        exact h e he
      | true =>
        by_cases hc : activePlayersCount room₀ = 0
        · rw [fire_delete _ _ _ hg0 ht hc] at he
          exact h e (mem_storeDelete _ _ e he)
        · rw [fire_clear _ _ _ hg0 ht hc] at he
          rcases mem_storeSet _ _ _ e he with h1 | h1
          · rw [h1]
            exact h (rid₀, room₀) (storeGet_mem store rid₀ room₀ hg0)
          · exact h e h1

/-- Claim C6 as amended. For non-empty nickname and playerId, the
`create-room` handler stores a fresh room (one seat with mark X, empty
board, turn X, round 1) at the generated id unconditionally and replies
with that id; the generated id — the uppercased `slice(2, 8)` of the
random source — is at most 6 characters; and no collision check is made:
if a live room already exists under the generated id, the store ends up
holding the fresh room there (the existing room is replaced). -/
theorem claim6_amended_create (store : RoomStore) (sid nickname playerId : String)
    (rand : List Char) (hn : nickname ≠ "") (hp : playerId ≠ "") :
    (createRoom sid nickname playerId rand store).1 =
      storeSet store (generateRoomId rand) (initialRoom sid playerId nickname) ∧
    (createRoom sid nickname playerId rand store).2.1 =
      .okRoomId (generateRoomId rand) ∧
    (generateRoomId rand).length ≤ 6 ∧
    (∀ room₀, storeGet store (generateRoomId rand) = some room₀ →
      storeGet (createRoom sid nickname playerId rand store).1 (generateRoomId rand) =
        some (initialRoom sid playerId nickname)) := by
  have heq := createRoom_valid sid nickname playerId rand store hn hp
  refine ⟨by rw [heq], by rw [heq], ?_, ?_⟩
  · unfold generateRoomId
    have h1 : (String.mk (((rand.drop 2).take 6).map Char.toUpper)).length =
        (((rand.drop 2).take 6).map Char.toUpper).length := rfl
    rw [h1, List.length_map, List.length_take]
    exact min_le_left _ _
  · intro room₀ h₀
    rw [heq]
    show storeGet (storeSet store (generateRoomId rand)
      (initialRoom sid playerId nickname)) (generateRoomId rand) = _
    rw [storeGet_storeSet, if_pos rfl]

/-- Claim C6 amended-claim witness: creating over `collideStore` with the same
generated id `"AB"` replaces the live room with the fresh one. -/
theorem claim6_witness :
    (createRoom "s3" "C" "p3" randAB collideStore).1 =
      storeSet collideStore (generateRoomId randAB) (initialRoom "s3" "p3" "C") ∧
    (createRoom "s3" "C" "p3" randAB collideStore).2.1 =
      .okRoomId (generateRoomId randAB) ∧
    (generateRoomId randAB).length ≤ 6 ∧
    (∀ room₀, storeGet collideStore (generateRoomId randAB) = some room₀ →
      storeGet (createRoom "s3" "C" "p3" randAB collideStore).1
        (generateRoomId randAB) = some (initialRoom "s3" "p3" "C")) :=
  claim6_amended_create collideStore "s3" "C" "p3" randAB (by decide) (by decide)

/-- Claim C8 as amended. In every reachable store, each room's seat list
carries marks exactly `[X]` or `[X, O]`: a room has 1 or 2 seats, at most
one seat per mark, with `"X"` held by the first occupant and `"O"` by the
second. (In-room uniqueness of `playerId` does not hold — see the
counterexample: join performs no duplicate-`playerId` check.) -/
theorem claim8_amended_marks (acts : List Act) :
    ∀ e ∈ runActs acts, e.2.players.map Player.symbol = [Mark.X] ∨
      e.2.players.map Player.symbol = [Mark.X, Mark.O] := by
  suffices hgen : ∀ (l : List Act) (store : RoomStore),
      (∀ e ∈ store, e.2.players.map Player.symbol = [Mark.X] ∨
        e.2.players.map Player.symbol = [Mark.X, Mark.O]) →
      ∀ e ∈ l.foldl (fun s a => applyAct a s) store,
        e.2.players.map Player.symbol = [Mark.X] ∨
        e.2.players.map Player.symbol = [Mark.X, Mark.O] by
    exact hgen acts [] (by simp)
  intro l
  induction l with
  | nil =>
    intro store h
    simpa using h
  | cons a rest ih =>
    intro store h
    rw [List.foldl_cons]
    exact ih (applyAct a store) (marksInv_applyAct a store h)

/-- Claim C8 amended-claim witness: the reachable two-seat room `"R"` carries
marks `[X, O]`. -/
theorem claim8_witness :
    ("R", joinedRoom).2.players.map Player.symbol = [Mark.X] ∨
      ("R", joinedRoom).2.players.map Player.symbol = [Mark.X, Mark.O] :=
  claim8_amended_marks [.create "s1" "A" "p1" randR, .join "s2" "B" "p2" "R"]
    ("R", joinedRoom) (by decide)

end XOServer
